import Mathlib

/-!
Shallow embedding of the flash wear-leveling controller
(`src/flashMemoryController.c`, `src/flashMemoryController.h`).

The controller keeps an in-memory mirror (`fctrStatusBytes`) of the status
table persisted in the first sector (the Map Sector) of the region after the
reserved offset.  The physical device (a W25Qxx chip) is an external
collaborator; its sector read/write/erase primitives and the verified byte
write are modelled by a `Device` record of outcomes plus explicit updates to
the persisted flash contents carried in `FctrState`.  Under the compiled
configuration (`IC_W25Qxx` defined) the sector-level primitives in the C file
unconditionally return `FCTRSTAT_OK`; only the single-byte write can fail,
through its read-back verification, and only the chip init and the geometry
query can fail at initialization.

Machine integers are modelled as `Nat`: every value stored is a byte constant
below 256 and no arithmetic overflows at the sizes involved.
-/

/-- Result codes of the controller, `fctrStat_t` in `flashMemoryController.h`. -/
inductive FctrStat
  | ok
  | error
deriving DecidableEq

/-- Magic signature byte `SIGNATURE_BYTE` (`0b01010101`) marking formatted media. -/
def SIGNATURE_BYTE : Nat := 0b01010101

/-- Status byte `FCTR_SECTOR_RESERVED` (`0b11111111`): unformatted / unknown. -/
def FCTR_SECTOR_RESERVED : Nat := 0b11111111

/-- Status byte `FCTR_SECTOR_EMPTY` (`0b01011111`): sector is writable. -/
def FCTR_SECTOR_EMPTY : Nat := 0b01011111

/-- Status byte `FCTR_SECTOR_UNREAD` (`0b01011110`): sector holds undelivered data. -/
def FCTR_SECTOR_UNREAD : Nat := 0b01011110

/-- Status byte `FCTR_SECTOR_READ` (`0b01011100`): sector delivered, reclaimable. -/
def FCTR_SECTOR_READ : Nat := 0b01011100

/-- Compiled constant `FCTR_TOTAL_MEMORYSIZE_BYTES` from the header. -/
def FCTR_TOTAL_MEMORYSIZE_BYTES : Nat := 4194304 * 2

/-- Compiled constant `FCTR_RESERVED_OFFSET` from the header. -/
def FCTR_RESERVED_OFFSET : Nat := 1048576

/-- Compiled constant `FCTR_SECTOR_SIZE` from the header. -/
def FCTR_SECTOR_SIZE : Nat := 4096

/-- Compiled constant `FCTR_TOTAL_SECTORS` from the header. -/
def FCTR_TOTAL_SECTORS : Nat := FCTR_TOTAL_MEMORYSIZE_BYTES / FCTR_SECTOR_SIZE

/-- Compiled constant `FCTR_AVAILABLE_SECTORS` from the header: number of
sectors of the managed region, status-table entry 0 (the Map Sector) included. -/
def FCTR_AVAILABLE_SECTORS : Nat := FCTR_TOTAL_SECTORS - FCTR_RESERVED_OFFSET / FCTR_SECTOR_SIZE

/-- Compiled constant `FCTR_SIZE_OF_KILOBYTE` from the header. -/
def FCTR_SIZE_OF_KILOBYTE : Nat := 1024

/-- Outcomes and geometry reported by the external W25Qxx device driver.
`writeByteVerifyOk` is the outcome of the read-back verification performed by
`fctr_writeByte` after `W25qxx_WriteByte`; `initOk` is the outcome of
`W25qxx_Init`; the three geometry fields are what `w25qxx` reports to
`fctr_getFlashSizes`. -/
structure Device where
  writeByteVerifyOk : Bool
  initOk : Bool
  capacityInKB : Nat
  sectorCount : Nat
  sectorSize : Nat

/-- State of the controller and of the managed flash region.
`fctrStatusBytes` is the global in-memory mirror (an array of
`FCTR_AVAILABLE_SECTORS` bytes in the C file); `flash j` is the persisted
content of sector `j` of the region after `FCTR_RESERVED_OFFSET` (sector 0 is
the Map Sector); `persistCount` counts the erase-and-rewrite persists of the
Map Sector performed by `fctr_writeSectorStatus`. -/
structure FctrState where
  fctrStatusBytes : List Nat
  flash : Nat → List Nat
  persistCount : Nat

/-- Embedding of `fctr_initIC`: succeeds iff `W25qxx_Init` reports success. -/
def fctr_initIC (dev : Device) : FctrStat :=
  if dev.initOk then FctrStat.ok else FctrStat.error

/-- Embedding of `fctr_getFlashSizes`: reports the geometry from the device and
fails exactly when the reported capacity is below `FCTR_SIZE_OF_KILOBYTE`
kilobytes.  The detected geometry is never compared to the compiled constants
outside of debug printing. -/
def fctr_getFlashSizes (dev : Device) : FctrStat × Nat × Nat × Nat :=
  (if dev.capacityInKB < FCTR_SIZE_OF_KILOBYTE then FctrStat.error else FctrStat.ok,
   dev.capacityInKB, dev.sectorCount, dev.sectorSize)

/-- Embedding of `fctr_writeByte`: writes one byte at the given address of the
managed region (which lands in sector `address / FCTR_SECTOR_SIZE`) and
verifies it by read-back.  The physical write is external
(`W25qxx_WriteByte`); the verification outcome is the device oracle
`writeByteVerifyOk`.  On a failed verification the persisted byte is
device-dependent; the model leaves it unmodified. -/
def fctr_writeByte (dev : Device) (byteToWrite requestedAddress : Nat) (s : FctrState) :
    FctrStat × FctrState :=
  let sector := requestedAddress / FCTR_SECTOR_SIZE
  let offset := requestedAddress % FCTR_SECTOR_SIZE
  if dev.writeByteVerifyOk then
    (FctrStat.ok,
     { s with flash := fun j => if j = sector then (s.flash sector).set offset byteToWrite else s.flash j })
  else
    (FctrStat.error, s)

/-- Embedding of `fctr_writeSector`: the C code erases the target sector if it
is not already blank and then writes the buffer, so the net persisted content
of the sector is the buffer; always reports `FCTRSTAT_OK` (no integrity check
is available from the driver). -/
def fctr_writeSector (pBuffer : List Nat) (requestedSector : Nat) (s : FctrState) :
    FctrStat × FctrState :=
  (FctrStat.ok,
   { s with flash := fun j => if j = requestedSector then pBuffer else s.flash j })

/-- Embedding of `fctr_readSector`: returns the persisted content of the
requested sector; always reports `FCTRSTAT_OK`. -/
def fctr_readSector (requestedSector : Nat) (s : FctrState) :
    FctrStat × List Nat × FctrState :=
  (FctrStat.ok, s.flash requestedSector, s)

/-- Embedding of `fctr_writeSectorStatus`: erases the Map Sector and rewrites
it with the given table (the erased tail of the sector beyond the table is
never read back by the controller and is elided); always reports
`FCTRSTAT_OK`.  This is the full-table persist counted by `persistCount`. -/
def fctr_writeSectorStatus (sectorStatus : List Nat) (s : FctrState) :
    FctrStat × FctrState :=
  (FctrStat.ok,
   { s with flash := fun j => if j = 0 then sectorStatus else s.flash j,
            persistCount := s.persistCount + 1 })

/-- Embedding of `fctr_readSectorStatus`: loads the first
`FCTR_AVAILABLE_SECTORS` bytes of the Map Sector into the mirror; always
reports `FCTRSTAT_OK`. -/
def fctr_readSectorStatus (s : FctrState) : FctrStat × FctrState :=
  (FctrStat.ok,
   { s with fctrStatusBytes := (s.flash 0).take FCTR_AVAILABLE_SECTORS })

/-- Embedding of `fctr_changeSectorStatus`: writes the single status byte for
the given sector via `fctr_writeByte` and then assigns the mirror entry
unconditionally, read-back verification outcome notwithstanding (the
assignment `fctrStatusBytes[sectorToChangeStatusOf] = byteBuff` in the C file
is outside the success branch). -/
def fctr_changeSectorStatus (dev : Device) (newSectorStat : Nat)
    (sectorToChangeStatusOf : Nat) (s : FctrState) : FctrStat × FctrState :=
  let byteBuff := newSectorStat
  let wr := fctr_writeByte dev byteBuff sectorToChangeStatusOf s
  let result := if wr.1 ≠ FctrStat.ok then FctrStat.error else FctrStat.ok
  (result, { wr.2 with fctrStatusBytes := wr.2.fctrStatusBytes.set sectorToChangeStatusOf byteBuff })

/-- Embedding of `fctr_refreshTheMemoryStatus` on the mirror (the C function
receives a pointer to the global mirror): stamps the signature into entry 0
and persists the whole table. -/
def fctr_refreshTheMemoryStatus (s : FctrState) : FctrStat × FctrState :=
  let memStatus := s.fctrStatusBytes.set 0 SIGNATURE_BYTE
  let s1 : FctrState := { s with fctrStatusBytes := memStatus }
  let ws := fctr_writeSectorStatus memStatus s1
  if ws.1 ≠ FctrStat.ok then (FctrStat.error, ws.2) else (FctrStat.ok, ws.2)

/-- Embedding of `fctr_formatTheMemorySpace`: sets the whole mirror to
`FCTR_SECTOR_EMPTY` (the `memset`), stamps the signature into entry 0, and
persists the table. -/
def fctr_formatTheMemorySpace (s : FctrState) : FctrStat × FctrState :=
  let table := (List.replicate FCTR_AVAILABLE_SECTORS FCTR_SECTOR_EMPTY).set 0 SIGNATURE_BYTE
  let s1 : FctrState := { s with fctrStatusBytes := table }
  let ws := fctr_writeSectorStatus table s1
  if ws.1 ≠ FctrStat.ok then (FctrStat.error, ws.2) else (FctrStat.ok, ws.2)

/-- Model of the C `for` loops that scan the mirror for the first index `i`
(starting at `start`, running while the index is below `start + fuel`) whose
status byte equals `target`; returns that index or `none`. -/
def scanStatus (status : List Nat) (target : Nat) : Nat → Nat → Option Nat
  | _, 0 => none
  | i, fuel + 1 =>
    if status.getD i 0 = target then some i
    else scanStatus status target (i + 1) fuel

/-- Model of the compaction loop of `fctr_findSectorToWrite`: every scanned
entry whose byte is not `FCTR_SECTOR_UNREAD` is set to `FCTR_SECTOR_EMPTY`;
the boolean is the `foundASector` flag, set when any entry was rewritten. -/
def compactLoop (status : List Nat) : Nat → Nat → List Nat × Bool
  | _, 0 => (status, false)
  | i, fuel + 1 =>
    if status.getD i 0 ≠ FCTR_SECTOR_UNREAD then
      let rest := compactLoop (status.set i FCTR_SECTOR_EMPTY) (i + 1) fuel
      (rest.1, true)
    else compactLoop status (i + 1) fuel

/-- Embedding of `fctr_findSectorToRead`: scans indices `1 ..
FCTR_AVAILABLE_SECTORS - 1` of the mirror for the first `FCTR_SECTOR_UNREAD`
entry.  `some i` stands for `FCTRSTAT_OK` with output `i`; the C function
performs no write, so the state is returned unchanged. -/
def fctr_findSectorToRead (s : FctrState) : Option Nat × FctrState :=
  (scanStatus s.fctrStatusBytes FCTR_SECTOR_UNREAD 1 (FCTR_AVAILABLE_SECTORS - 1), s)

/-- Embedding of `fctr_findSectorToWrite`: first scans indices `1 ..
FCTR_AVAILABLE_SECTORS - 1` for an `FCTR_SECTOR_EMPTY` entry; if none is
found, runs the compaction loop, and when at least one entry changed,
refreshes the persisted table and rescans from index 0.  `some i` stands for
`FCTRSTAT_OK` with output `i`, `none` for `FCTRSTAT_ERROR`. -/
def fctr_findSectorToWrite (s : FctrState) : Option Nat × FctrState :=
  match scanStatus s.fctrStatusBytes FCTR_SECTOR_EMPTY 1 (FCTR_AVAILABLE_SECTORS - 1) with
  | some emptySector => (some emptySector, s)
  | none =>
    let comp := compactLoop s.fctrStatusBytes 1 (FCTR_AVAILABLE_SECTORS - 1)
    let s1 : FctrState := { s with fctrStatusBytes := comp.1 }
    if comp.2 then
      let rf := fctr_refreshTheMemoryStatus s1
      if rf.1 ≠ FctrStat.ok then (none, rf.2)
      else
        match scanStatus rf.2.fctrStatusBytes FCTR_SECTOR_EMPTY 0 FCTR_AVAILABLE_SECTORS with
        | some i => (some i, rf.2)
        | none => (none, rf.2)
    else (none, s1)

/-- Embedding of `fctr_pushToFlash`: find a sector to write, write the payload
to it, then mark it `FCTR_SECTOR_UNREAD`. -/
def fctr_pushToFlash (dev : Device) (pBuffer : List Nat) (s : FctrState) :
    FctrStat × FctrState :=
  match fctr_findSectorToWrite s with
  | (none, s1) => (FctrStat.error, s1)
  | (some sectorToWrite, s1) =>
    let ws := fctr_writeSector pBuffer sectorToWrite s1
    if ws.1 ≠ FctrStat.ok then (FctrStat.error, ws.2)
    else
      let cs := fctr_changeSectorStatus dev FCTR_SECTOR_UNREAD sectorToWrite ws.2
      if cs.1 ≠ FctrStat.ok then (FctrStat.error, cs.2)
      else (FctrStat.ok, cs.2)

/-- Embedding of `fctr_popFromFlash`: find a sector to read, read it into the
caller's buffer (returned as the middle component; its content on the
no-data-available failure path is unspecified in C and modelled as `[]`),
then mark the sector `FCTR_SECTOR_READ`. -/
def fctr_popFromFlash (dev : Device) (s : FctrState) :
    FctrStat × List Nat × FctrState :=
  match fctr_findSectorToRead s with
  | (none, s1) => (FctrStat.error, [], s1)
  | (some sectorToRead, s1) =>
    let rs := fctr_readSector sectorToRead s1
    if rs.1 ≠ FctrStat.ok then (FctrStat.error, rs.2.1, rs.2.2)
    else
      let cs := fctr_changeSectorStatus dev FCTR_SECTOR_READ sectorToRead rs.2.2
      if cs.1 ≠ FctrStat.ok then (FctrStat.error, rs.2.1, cs.2)
      else (FctrStat.ok, rs.2.1, cs.2)

/-- Embedding of `fctr_firstInit`: chip init, geometry query (the queried
values are only used for debug printing), load of the status table, signature
check, and on a signature mismatch a format followed by a re-read of the Map
Sector into the mirror (the C `fctr_readSector` call copies a full sector
into the `FCTR_AVAILABLE_SECTORS`-byte mirror; the bytes landing inside the
mirror are its first `FCTR_AVAILABLE_SECTORS`).  The result of
`fctr_formatTheMemorySpace` is discarded, as in the C file. -/
def fctr_firstInit (dev : Device) (s : FctrState) : FctrStat × FctrState :=
  if fctr_initIC dev ≠ FctrStat.ok then (FctrStat.error, s)
  else if (fctr_getFlashSizes dev).1 ≠ FctrStat.ok then (FctrStat.error, s)
  else
    let rs := fctr_readSectorStatus s
    if rs.1 ≠ FctrStat.ok then (FctrStat.error, rs.2)
    else if rs.2.fctrStatusBytes.getD 0 0 ≠ SIGNATURE_BYTE then
      let s2 := (fctr_formatTheMemorySpace rs.2).2
      let rd := fctr_readSector 0 s2
      if rd.1 ≠ FctrStat.ok then (FctrStat.error, rd.2.2)
      else (FctrStat.ok, { rd.2.2 with fctrStatusBytes := rd.2.1.take FCTR_AVAILABLE_SECTORS })
    else (FctrStat.ok, rs.2)

/-- Iterated pushes: `pushSeq dev p s k` is the controller state after the
first `k` pushes of the payload sequence `p` starting from state `s`. -/
def pushSeq (dev : Device) (p : Nat → List Nat) (s : FctrState) : Nat → FctrState
  | 0 => s
  | k + 1 => (fctr_pushToFlash dev (p k) (pushSeq dev p s k)).2

/-- All-success device with the geometry of the compiled configuration. -/
def devAllOk : Device :=
  { writeByteVerifyOk := true, initOk := true, capacityInKB := 8192,
    sectorCount := 2048, sectorSize := 4096 }

/-- Device whose single-byte write fails its read-back verification. -/
def devFailWrite : Device :=
  { writeByteVerifyOk := false, initOk := true, capacityInKB := 8192,
    sectorCount := 2048, sectorSize := 4096 }

/-- Small concrete state: signature in place, sector 1 empty. -/
def stC1 : FctrState :=
  { fctrStatusBytes := [SIGNATURE_BYTE, FCTR_SECTOR_EMPTY],
    flash := fun _ => [], persistCount := 0 }

/-- Concrete state with a full mirror whose usable entries are all unread. -/
def stAllUnread : FctrState :=
  { fctrStatusBytes := SIGNATURE_BYTE :: List.replicate 1791 FCTR_SECTOR_UNREAD,
    flash := fun _ => [], persistCount := 0 }

/-- Concrete freshly formatted state: signature, then all usable entries empty. -/
def stFormatted : FctrState :=
  { fctrStatusBytes := SIGNATURE_BYTE :: List.replicate 1791 FCTR_SECTOR_EMPTY,
    flash := fun _ => [], persistCount := 0 }

/-- Concrete state of a blank medium: every persisted sector reads back empty. -/
def stBlank : FctrState :=
  { fctrStatusBytes := [], flash := fun _ => [], persistCount := 0 }

theorem FCTR_AVAILABLE_SECTORS_eq : FCTR_AVAILABLE_SECTORS = 1792 := rfl

theorem getD_set_self (l : List Nat) (i v : Nat) (h : i < l.length) :
    (l.set i v).getD i 0 = v := by
  simp [List.getD_eq_getElem?_getD, List.getElem?_set_self h]

theorem getD_set_ne (l : List Nat) (i j v : Nat) (h : i ≠ j) :
    (l.set i v).getD j 0 = l.getD j 0 := by
  simp [List.getD_eq_getElem?_getD, List.getElem?_set_ne h]

theorem getD_replicate (a k j : Nat) (h : j < k) :
    (List.replicate k a).getD j 0 = a := by
  simp [List.getD_eq_getElem?_getD, List.getElem?_replicate, h]

theorem getD_take_zero (l : List Nat) (n : Nat) (h : 0 < n) :
    (l.take n).getD 0 0 = l.getD 0 0 := by
  cases l with
  | nil => simp
  | cons a t =>
    cases n with
    | zero => omega
    | succ m => simp [List.take]

theorem repl_append_getD_left (u e k m j : Nat) (h : j < k) :
    (List.replicate k u ++ List.replicate m e).getD j 0 = u := by
  rw [List.getD_eq_getElem?_getD, List.getElem?_append]
  simp [List.length_replicate, h, List.getElem?_replicate]

theorem repl_append_getD_right (u e k m j : Nat) (h1 : k ≤ j) (h2 : j < k + m) :
    (List.replicate k u ++ List.replicate m e).getD j 0 = e := by
  rw [List.getD_eq_getElem?_getD, List.getElem?_append]
  have hnot : ¬ j < (List.replicate k u).length := by
    rw [List.length_replicate]; omega
  rw [if_neg hnot, List.length_replicate, List.getElem?_replicate,
      if_pos (by omega : j - k < m)]
  rfl

theorem set_replicate_append (u e : Nat) (t : List Nat) :
    ∀ k, (List.replicate k u ++ e :: t).set k u = List.replicate (k + 1) u ++ t := by
  intro k
  induction k with
  | zero => simp
  | succ n ih =>
    rw [List.replicate_succ, List.cons_append, List.set_cons_succ, ih]
    simp [List.replicate_succ]

theorem scanStatus_none_iff (st : List Nat) (t : Nat) :
    ∀ (fuel i : Nat),
      (scanStatus st t i fuel = none ↔ ∀ j, i ≤ j → j < i + fuel → st.getD j 0 ≠ t) := by
  intro fuel
  induction fuel with
  | zero =>
    intro i
    simp [scanStatus]
    intro j h1 h2
    omega
  | succ n ih =>
    intro i
    by_cases h : st.getD i 0 = t
    · simp only [scanStatus, h, if_pos rfl]
      constructor
      · intro hc; exact absurd hc (by simp)
      · intro hall; exact absurd h (hall i le_rfl (by omega))
    · simp only [scanStatus, if_neg h]
      rw [ih (i + 1)]
      constructor
      · intro h1 j hj1 hj2
        rcases Nat.eq_or_lt_of_le hj1 with heq | hlt
        · rw [heq] at h; exact h
        · exact h1 j hlt (by omega)
      · intro h2 j hj1 hj2
        exact h2 j (by omega) (by omega)

theorem scanStatus_eq_some (st : List Nat) (t : Nat) :
    ∀ (fuel i k : Nat), scanStatus st t i fuel = some k →
      i ≤ k ∧ k < i + fuel ∧ st.getD k 0 = t ∧ ∀ j, i ≤ j → j < k → st.getD j 0 ≠ t := by
  intro fuel
  induction fuel with
  | zero => intro i k h; simp [scanStatus] at h
  | succ n ih =>
    intro i k h
    by_cases hhit : st.getD i 0 = t
    · rw [scanStatus, if_pos hhit] at h
      injection h with h
      subst h
      exact ⟨le_rfl, by omega, hhit, fun j hj1 hj2 => by omega⟩
    · simp only [scanStatus, if_neg hhit] at h
      obtain ⟨h1, h2, h3, h4⟩ := ih (i + 1) k h
      refine ⟨by omega, by omega, h3, ?_⟩
      intro j hj1 hj2
      rcases Nat.eq_or_lt_of_le hj1 with heq | hlt
      · rw [heq] at hhit; exact hhit
      · exact h4 j hlt hj2

theorem scanStatus_finds_least (st : List Nat) (t : Nat) (fuel i m : Nat)
    (h1 : i ≤ m) (h2 : m < i + fuel) (hit : st.getD m 0 = t)
    (hleast : ∀ j, i ≤ j → j < m → st.getD j 0 ≠ t) :
    scanStatus st t i fuel = some m := by
  cases heq : scanStatus st t i fuel with
  | none =>
    rw [scanStatus_none_iff] at heq
    exact absurd hit (heq m h1 h2)
  | some k =>
    obtain ⟨hk1, hk2, hk3, hk4⟩ := scanStatus_eq_some st t fuel i k heq
    rcases Nat.lt_trichotomy k m with hlt | heqkm | hgt
    · exact absurd hk3 (hleast k hk1 hlt)
    · rw [heqkm]
    · exact absurd hit (hk4 m h1 hgt)

theorem compactLoop_length :
    ∀ (fuel : Nat) (st : List Nat) (i : Nat), (compactLoop st i fuel).1.length = st.length := by
  intro fuel
  induction fuel with
  | zero => intro st i; rfl
  | succ n ih =>
    intro st i
    by_cases h : st.getD i 0 ≠ FCTR_SECTOR_UNREAD
    · simp only [compactLoop, if_pos h]
      rw [ih, List.length_set]
    · simp only [compactLoop, if_neg h]
      exact ih st (i + 1)

theorem compactLoop_false_iff :
    ∀ (fuel : Nat) (st : List Nat) (i : Nat),
      ((compactLoop st i fuel).2 = false ↔
        ∀ j, i ≤ j → j < i + fuel → st.getD j 0 = FCTR_SECTOR_UNREAD) := by
  intro fuel
  induction fuel with
  | zero =>
    intro st i
    simp [compactLoop]
    intro j h1 h2
    omega
  | succ n ih =>
    intro st i
    by_cases h : st.getD i 0 ≠ FCTR_SECTOR_UNREAD
    · simp only [compactLoop, if_pos h]
      constructor
      · intro hc; exact absurd hc (by simp)
      · intro hall; exact absurd (hall i le_rfl (by omega)) h
    · push_neg at h
      simp only [compactLoop, if_neg (fun hc => hc h : ¬ st.getD i 0 ≠ FCTR_SECTOR_UNREAD)]
      rw [ih st (i + 1)]
      constructor
      · intro h1 j hj1 hj2
        rcases Nat.eq_or_lt_of_le hj1 with heq | hlt
        · rw [heq] at h; exact h
        · exact h1 j hlt (by omega)
      · intro h2 j hj1 hj2
        exact h2 j (by omega) (by omega)

theorem compactLoop_getD :
    ∀ (fuel : Nat) (st : List Nat) (i : Nat), i + fuel ≤ st.length →
      ∀ j, (compactLoop st i fuel).1.getD j 0 =
        if i ≤ j ∧ j < i + fuel ∧ st.getD j 0 ≠ FCTR_SECTOR_UNREAD then FCTR_SECTOR_EMPTY
        else st.getD j 0 := by
  intro fuel
  induction fuel with
  | zero =>
    intro st i hle j
    have hnc : ¬ (i ≤ j ∧ j < i + 0 ∧ st.getD j 0 ≠ FCTR_SECTOR_UNREAD) := by
      rintro ⟨a, b, c⟩; omega
    show st.getD j 0 = if i ≤ j ∧ j < i + 0 ∧ st.getD j 0 ≠ FCTR_SECTOR_UNREAD then FCTR_SECTOR_EMPTY else st.getD j 0
    rw [if_neg hnc]
  | succ n ih =>
    intro st i hle j
    by_cases hhit : st.getD i 0 ≠ FCTR_SECTOR_UNREAD
    · simp only [compactLoop, if_pos hhit]
      have hlen : i + 1 + n ≤ (st.set i FCTR_SECTOR_EMPTY).length := by
        rw [List.length_set]; omega
      rw [ih (st.set i FCTR_SECTOR_EMPTY) (i + 1) hlen j]
      rcases eq_or_ne j i with heq | hne
      · subst heq
        have hii : (st.set j FCTR_SECTOR_EMPTY).getD j 0 = FCTR_SECTOR_EMPTY :=
          getD_set_self st j FCTR_SECTOR_EMPTY (by omega)
        have hc1 : ¬ (j + 1 ≤ j ∧ j < j + 1 + n ∧ (st.set j FCTR_SECTOR_EMPTY).getD j 0 ≠ FCTR_SECTOR_UNREAD) := by
          rintro ⟨a, _, _⟩; omega
        have hc2 : j ≤ j ∧ j < j + (n + 1) ∧ st.getD j 0 ≠ FCTR_SECTOR_UNREAD :=
          ⟨le_rfl, by omega, hhit⟩
        rw [if_neg hc1, if_pos hc2, hii]
      · have hset : (st.set i FCTR_SECTOR_EMPTY).getD j 0 = st.getD j 0 :=
          getD_set_ne st i j FCTR_SECTOR_EMPTY (Ne.symm hne)
        simp only [hset]
        refine if_congr ?_ rfl rfl
        constructor
        · rintro ⟨a1, a2, a3⟩; exact ⟨by omega, by omega, a3⟩
        · rintro ⟨b1, b2, b3⟩; exact ⟨by omega, by omega, b3⟩
    · push_neg at hhit
      simp only [compactLoop, if_neg (fun hc => hc hhit : ¬ st.getD i 0 ≠ FCTR_SECTOR_UNREAD)]
      rw [ih st (i + 1) (by omega) j]
      rcases eq_or_ne j i with heq | hne
      · subst heq
        have hc1 : ¬ (j + 1 ≤ j ∧ j < j + 1 + n ∧ st.getD j 0 ≠ FCTR_SECTOR_UNREAD) := by
          rintro ⟨a, _, _⟩; omega
        have hc2 : ¬ (j ≤ j ∧ j < j + (n + 1) ∧ st.getD j 0 ≠ FCTR_SECTOR_UNREAD) := by
          rintro ⟨_, _, c⟩; exact c hhit
        rw [if_neg hc1, if_neg hc2]
      · refine if_congr ?_ rfl rfl
        constructor
        · rintro ⟨a1, a2, a3⟩; exact ⟨by omega, by omega, a3⟩
        · rintro ⟨b1, b2, b3⟩; exact ⟨by omega, by omega, b3⟩

theorem findWrite_scan_some (s : FctrState) (k : Nat)
    (h : scanStatus s.fctrStatusBytes FCTR_SECTOR_EMPTY 1 (FCTR_AVAILABLE_SECTORS - 1) = some k) :
    fctr_findSectorToWrite s = (some k, s) := by
  unfold fctr_findSectorToWrite
  rw [h]

theorem findWrite_scan_none_nofound (s : FctrState)
    (h : scanStatus s.fctrStatusBytes FCTR_SECTOR_EMPTY 1 (FCTR_AVAILABLE_SECTORS - 1) = none)
    (h2 : (compactLoop s.fctrStatusBytes 1 (FCTR_AVAILABLE_SECTORS - 1)).2 = false) :
    fctr_findSectorToWrite s =
      (none, { s with fctrStatusBytes :=
        (compactLoop s.fctrStatusBytes 1 (FCTR_AVAILABLE_SECTORS - 1)).1 }) := by
  unfold fctr_findSectorToWrite
  rw [h]
  simp only [h2, Bool.false_eq_true, if_false]

theorem findWrite_scan_none_found (s : FctrState)
    (h : scanStatus s.fctrStatusBytes FCTR_SECTOR_EMPTY 1 (FCTR_AVAILABLE_SECTORS - 1) = none)
    (h2 : (compactLoop s.fctrStatusBytes 1 (FCTR_AVAILABLE_SECTORS - 1)).2 = true) :
    fctr_findSectorToWrite s =
      (scanStatus
        ((compactLoop s.fctrStatusBytes 1 (FCTR_AVAILABLE_SECTORS - 1)).1.set 0 SIGNATURE_BYTE)
        FCTR_SECTOR_EMPTY 0 FCTR_AVAILABLE_SECTORS,
       { fctrStatusBytes :=
          (compactLoop s.fctrStatusBytes 1 (FCTR_AVAILABLE_SECTORS - 1)).1.set 0 SIGNATURE_BYTE,
         flash := fun j =>
          if j = 0 then
            (compactLoop s.fctrStatusBytes 1 (FCTR_AVAILABLE_SECTORS - 1)).1.set 0 SIGNATURE_BYTE
          else s.flash j,
         persistCount := s.persistCount + 1 }) := by
  unfold fctr_findSectorToWrite
  rw [h]
  simp only [h2, if_true]
  unfold fctr_refreshTheMemoryStatus fctr_writeSectorStatus
  simp only [ne_eq, not_true_eq_false, if_false, ite_false, reduceCtorEq]
  cases hres : scanStatus
      ((compactLoop s.fctrStatusBytes 1 (FCTR_AVAILABLE_SECTORS - 1)).1.set 0 SIGNATURE_BYTE)
      FCTR_SECTOR_EMPTY 0 FCTR_AVAILABLE_SECTORS with
  | none => simp [hres]
  | some i => simp [hres]

/-- C1 counterexample: with a failing read-back verification, a call to
`fctr_changeSectorStatus` on sector 1 (previously `FCTR_SECTOR_EMPTY`) returns
failure yet changes the in-memory mirror entry for index 1 to
`FCTR_SECTOR_UNREAD`, so the entry is not left equal to its prior value. -/
theorem claim_C1_counterexample :
    (fctr_changeSectorStatus devFailWrite FCTR_SECTOR_UNREAD 1 stC1).1 = FctrStat.error ∧
    stC1.fctrStatusBytes.getD 1 0 = FCTR_SECTOR_EMPTY ∧
    (fctr_changeSectorStatus devFailWrite FCTR_SECTOR_UNREAD 1 stC1).2.fctrStatusBytes.getD 1 0 =
      FCTR_SECTOR_UNREAD ∧
    (fctr_changeSectorStatus devFailWrite FCTR_SECTOR_UNREAD 1 stC1).2.fctrStatusBytes.getD 1 0 ≠
      stC1.fctrStatusBytes.getD 1 0 := by
  refine ⟨rfl, rfl, rfl, ?_⟩
  decide

/-- C1 (amended): when `fctr_changeSectorStatus` returns failure because the
read-back verification of the written status byte did not match, the in-memory
mirror entry for that index is nevertheless overwritten with the new status
code (the mirror equals the old mirror with that entry set to the new code),
rather than being left unchanged. -/
theorem claim_C1 (dev : Device) (newStat idx : Nat) (s : FctrState)
    (h : (fctr_changeSectorStatus dev newStat idx s).1 = FctrStat.error) :
    (fctr_changeSectorStatus dev newStat idx s).2.fctrStatusBytes =
      s.fctrStatusBytes.set idx newStat := by
  unfold fctr_changeSectorStatus fctr_writeByte
  cases hdev : dev.writeByteVerifyOk <;> simp [hdev]

theorem claim_C1_witness :
    (fctr_changeSectorStatus devFailWrite FCTR_SECTOR_UNREAD 1 stC1).1 = FctrStat.error ∧
    (fctr_changeSectorStatus devFailWrite FCTR_SECTOR_UNREAD 1 stC1).2.fctrStatusBytes =
      stC1.fctrStatusBytes.set 1 FCTR_SECTOR_UNREAD :=
  ⟨rfl, claim_C1 devFailWrite FCTR_SECTOR_UNREAD 1 stC1 rfl⟩

/-- C4: if some entry at an index in `1 .. FCTR_AVAILABLE_SECTORS - 1` is
`FCTR_SECTOR_EMPTY`, then `fctr_findSectorToWrite` returns success with the
smallest such index and leaves the state (status table included) completely
unchanged: no compaction and no persist happen. -/
theorem claim_C4 (s : FctrState)
    (h : ∃ i, 1 ≤ i ∧ i < FCTR_AVAILABLE_SECTORS ∧
      s.fctrStatusBytes.getD i 0 = FCTR_SECTOR_EMPTY) :
    ∃ j, (fctr_findSectorToWrite s).1 = some j ∧ 1 ≤ j ∧ j < FCTR_AVAILABLE_SECTORS ∧
      s.fctrStatusBytes.getD j 0 = FCTR_SECTOR_EMPTY ∧
      (∀ k, 1 ≤ k → k < j → s.fctrStatusBytes.getD k 0 ≠ FCTR_SECTOR_EMPTY) ∧
      (fctr_findSectorToWrite s).2 = s := by
  have hN : FCTR_AVAILABLE_SECTORS = 1792 := rfl
  obtain ⟨i, hi1, hi2, hi3⟩ := h
  cases hscan : scanStatus s.fctrStatusBytes FCTR_SECTOR_EMPTY 1 (FCTR_AVAILABLE_SECTORS - 1) with
  | none =>
    rw [scanStatus_none_iff] at hscan
    exact absurd hi3 (hscan i hi1 (by omega))
  | some k =>
    obtain ⟨hk1, hk2, hk3, hk4⟩ := scanStatus_eq_some _ _ _ _ _ hscan
    rw [findWrite_scan_some s k hscan]
    exact ⟨k, rfl, hk1, by omega, hk3, hk4, rfl⟩

theorem claim_C4_witness :
    (∃ i, 1 ≤ i ∧ i < FCTR_AVAILABLE_SECTORS ∧
      stFormatted.fctrStatusBytes.getD i 0 = FCTR_SECTOR_EMPTY) ∧
    (∃ j, (fctr_findSectorToWrite stFormatted).1 = some j ∧
      1 ≤ j ∧ j < FCTR_AVAILABLE_SECTORS ∧
      stFormatted.fctrStatusBytes.getD j 0 = FCTR_SECTOR_EMPTY ∧
      (∀ k, 1 ≤ k → k < j → stFormatted.fctrStatusBytes.getD k 0 ≠ FCTR_SECTOR_EMPTY) ∧
      (fctr_findSectorToWrite stFormatted).2 = stFormatted) :=
  ⟨⟨1, le_rfl, by decide, rfl⟩, claim_C4 stFormatted ⟨1, le_rfl, by decide, rfl⟩⟩

/-- C5: `fctr_findSectorToRead` returns the smallest index in
`1 .. FCTR_AVAILABLE_SECTORS - 1` whose entry is `FCTR_SECTOR_UNREAD` when one
exists, returns failure exactly when no such entry exists, and always leaves
the state unchanged (it never writes and never compacts). -/
theorem claim_C5 (s : FctrState) :
    (∀ j, (fctr_findSectorToRead s).1 = some j →
        1 ≤ j ∧ j < FCTR_AVAILABLE_SECTORS ∧
        s.fctrStatusBytes.getD j 0 = FCTR_SECTOR_UNREAD ∧
        ∀ k, 1 ≤ k → k < j → s.fctrStatusBytes.getD k 0 ≠ FCTR_SECTOR_UNREAD) ∧
    ((fctr_findSectorToRead s).1 = none ↔
      ∀ i, 1 ≤ i → i < FCTR_AVAILABLE_SECTORS →
        s.fctrStatusBytes.getD i 0 ≠ FCTR_SECTOR_UNREAD) ∧
    (fctr_findSectorToRead s).2 = s := by
  have hN : FCTR_AVAILABLE_SECTORS = 1792 := rfl
  refine ⟨?_, ?_, rfl⟩
  · intro j hj
    obtain ⟨h1, h2, h3, h4⟩ := scanStatus_eq_some _ _ _ _ _ hj
    exact ⟨h1, by omega, h3, h4⟩
  · show scanStatus s.fctrStatusBytes FCTR_SECTOR_UNREAD 1 (FCTR_AVAILABLE_SECTORS - 1) = none ↔ _
    rw [scanStatus_none_iff]
    constructor
    · intro hall i hi1 hi2
      exact hall i hi1 (by omega)
    · intro hall j hj1 hj2
      exact hall j hj1 (by omega)

theorem claim_C5_witness :
    (∀ j, (fctr_findSectorToRead stFormatted).1 = some j →
        1 ≤ j ∧ j < FCTR_AVAILABLE_SECTORS ∧
        stFormatted.fctrStatusBytes.getD j 0 = FCTR_SECTOR_UNREAD ∧
        ∀ k, 1 ≤ k → k < j →
          stFormatted.fctrStatusBytes.getD k 0 ≠ FCTR_SECTOR_UNREAD) ∧
    ((fctr_findSectorToRead stFormatted).1 = none ↔
      ∀ i, 1 ≤ i → i < FCTR_AVAILABLE_SECTORS →
        stFormatted.fctrStatusBytes.getD i 0 ≠ FCTR_SECTOR_UNREAD) ∧
    (fctr_findSectorToRead stFormatted).2 = stFormatted :=
  claim_C5 stFormatted

/-- C10: `fctr_findSectorToWrite` never selects index 0, the Map Sector: the
first scan starts at index 1, and the rescan after compaction, though it
starts at index 0, sees the signature byte (written into entry 0 by the
refresh) there, which differs from `FCTR_SECTOR_EMPTY`. -/
theorem claim_C10 (s : FctrState) (i : Nat)
    (h : (fctr_findSectorToWrite s).1 = some i) : 1 ≤ i := by
  cases hscan : scanStatus s.fctrStatusBytes FCTR_SECTOR_EMPTY 1 (FCTR_AVAILABLE_SECTORS - 1) with
  | some k =>
    rw [findWrite_scan_some s k hscan] at h
    obtain ⟨h1, _, _, _⟩ := scanStatus_eq_some _ _ _ _ _ hscan
    injection h with h
    omega
  | none =>
    cases hfound : (compactLoop s.fctrStatusBytes 1 (FCTR_AVAILABLE_SECTORS - 1)).2 with
    | false =>
      rw [findWrite_scan_none_nofound s hscan hfound] at h
      exact absurd h (by simp)
    | true =>
      rw [findWrite_scan_none_found s hscan hfound] at h
      obtain ⟨_, _, hk3, _⟩ := scanStatus_eq_some _ _ _ _ _ h
      by_contra hcon
      have hi0 : i = 0 := by omega
      subst hi0
      cases hc : (compactLoop s.fctrStatusBytes 1 (FCTR_AVAILABLE_SECTORS - 1)).1 with
      | nil =>
        rw [hc] at hk3
        exact absurd hk3 (by decide)
      | cons a t =>
        rw [hc, List.set_cons_zero, List.getD_cons_zero] at hk3
        exact absurd hk3 (by decide)

theorem claim_C10_witness :
    (fctr_findSectorToWrite stFormatted).1 = some 1 ∧ 1 ≤ 1 :=
  ⟨by decide, claim_C10 stFormatted 1 (by decide)⟩

/-- C2: with the full status table loaded (the persist of the full table
always reports success in the compiled configuration), `fctr_findSectorToWrite`
fails if and only if every entry at indices `1 .. FCTR_AVAILABLE_SECTORS - 1`
is `FCTR_SECTOR_UNREAD`: then there is no empty entry and the compaction pass
changes nothing. -/
theorem claim_C2 (s : FctrState)
    (hlen : s.fctrStatusBytes.length = FCTR_AVAILABLE_SECTORS) :
    (fctr_findSectorToWrite s).1 = none ↔
      ∀ i, 1 ≤ i → i < FCTR_AVAILABLE_SECTORS →
        s.fctrStatusBytes.getD i 0 = FCTR_SECTOR_UNREAD := by
  have hN : FCTR_AVAILABLE_SECTORS = 1792 := rfl
  cases hscan : scanStatus s.fctrStatusBytes FCTR_SECTOR_EMPTY 1 (FCTR_AVAILABLE_SECTORS - 1) with
  | some k =>
    rw [findWrite_scan_some s k hscan]
    obtain ⟨hk1, hk2, hk3, _⟩ := scanStatus_eq_some _ _ _ _ _ hscan
    constructor
    · intro hc; exact absurd hc (by simp)
    · intro hall
      have hu := hall k hk1 (by omega)
      rw [hu] at hk3
      exact absurd hk3 (by decide)
  | none =>
    cases hfound : (compactLoop s.fctrStatusBytes 1 (FCTR_AVAILABLE_SECTORS - 1)).2 with
    | false =>
      rw [findWrite_scan_none_nofound s hscan hfound]
      have hall := (compactLoop_false_iff _ _ _).mp hfound
      simp only [true_iff]
      intro i h1 h2
      exact hall i h1 (by omega)
    | true =>
      rw [findWrite_scan_none_found s hscan hfound]
      have hne : ¬ ∀ j, 1 ≤ j → j < 1 + (FCTR_AVAILABLE_SECTORS - 1) →
          s.fctrStatusBytes.getD j 0 = FCTR_SECTOR_UNREAD := by
        intro hall
        rw [← compactLoop_false_iff (FCTR_AVAILABLE_SECTORS - 1) s.fctrStatusBytes 1] at hall
        rw [hall] at hfound
        exact absurd hfound (by simp)
      push_neg at hne
      obtain ⟨j, hj1, hj2, hj3⟩ := hne
      have hcomp := compactLoop_getD (FCTR_AVAILABLE_SECTORS - 1) s.fctrStatusBytes 1
        (by omega) j
      rw [if_pos ⟨hj1, hj2, hj3⟩] at hcomp
      have htab : ((compactLoop s.fctrStatusBytes 1 (FCTR_AVAILABLE_SECTORS - 1)).1.set 0
          SIGNATURE_BYTE).getD j 0 = FCTR_SECTOR_EMPTY := by
        rw [getD_set_ne _ _ _ _ (by omega), hcomp]
      cases hres : scanStatus
          ((compactLoop s.fctrStatusBytes 1 (FCTR_AVAILABLE_SECTORS - 1)).1.set 0 SIGNATURE_BYTE)
          FCTR_SECTOR_EMPTY 0 FCTR_AVAILABLE_SECTORS with
      | some m =>
        constructor
        · intro hc; exact absurd hc (by simp)
        · intro hall
          exact absurd (hall j hj1 (by omega)) hj3
      | none =>
        rw [scanStatus_none_iff] at hres
        exact absurd htab (hres j (by omega) (by omega))

theorem stAllUnread_length :
    stAllUnread.fctrStatusBytes.length = FCTR_AVAILABLE_SECTORS := by
  show (SIGNATURE_BYTE :: List.replicate 1791 FCTR_SECTOR_UNREAD).length = FCTR_AVAILABLE_SECTORS
  rw [List.length_cons, List.length_replicate, FCTR_AVAILABLE_SECTORS_eq]

theorem claim_C2_witness :
    stAllUnread.fctrStatusBytes.length = FCTR_AVAILABLE_SECTORS ∧
    ((fctr_findSectorToWrite stAllUnread).1 = none ↔
      ∀ i, 1 ≤ i → i < FCTR_AVAILABLE_SECTORS →
        stAllUnread.fctrStatusBytes.getD i 0 = FCTR_SECTOR_UNREAD) :=
  ⟨stAllUnread_length, claim_C2 stAllUnread stAllUnread_length⟩

/-- C3: when no entry at indices `1 .. FCTR_AVAILABLE_SECTORS - 1` is
`FCTR_SECTOR_EMPTY`, the compaction pass of `fctr_findSectorToWrite` sets
every entry in that range whose code is not `FCTR_SECTOR_UNREAD` (including
`FCTR_SECTOR_READ`, `FCTR_SECTOR_RESERVED` and corrupted bytes) to
`FCTR_SECTOR_EMPTY` and leaves every `FCTR_SECTOR_UNREAD` entry unchanged;
if at least one entry changed, it persists the full table exactly once (the
persisted Map Sector then equals the final mirror), and if nothing changed it
performs no persist. -/
theorem claim_C3 (s : FctrState)
    (hlen : s.fctrStatusBytes.length = FCTR_AVAILABLE_SECTORS)
    (hnoEmpty : ∀ i, 1 ≤ i → i < FCTR_AVAILABLE_SECTORS →
      s.fctrStatusBytes.getD i 0 ≠ FCTR_SECTOR_EMPTY) :
    (∀ i, 1 ≤ i → i < FCTR_AVAILABLE_SECTORS →
        (fctr_findSectorToWrite s).2.fctrStatusBytes.getD i 0 =
          if s.fctrStatusBytes.getD i 0 ≠ FCTR_SECTOR_UNREAD then FCTR_SECTOR_EMPTY
          else s.fctrStatusBytes.getD i 0) ∧
    ((∃ i, 1 ≤ i ∧ i < FCTR_AVAILABLE_SECTORS ∧
        s.fctrStatusBytes.getD i 0 ≠ FCTR_SECTOR_UNREAD) →
      (fctr_findSectorToWrite s).2.persistCount = s.persistCount + 1 ∧
      (fctr_findSectorToWrite s).2.flash 0 = (fctr_findSectorToWrite s).2.fctrStatusBytes) ∧
    ((∀ i, 1 ≤ i → i < FCTR_AVAILABLE_SECTORS →
        s.fctrStatusBytes.getD i 0 = FCTR_SECTOR_UNREAD) →
      (fctr_findSectorToWrite s).2.persistCount = s.persistCount) := by
  have hN : FCTR_AVAILABLE_SECTORS = 1792 := rfl
  have hscan : scanStatus s.fctrStatusBytes FCTR_SECTOR_EMPTY 1 (FCTR_AVAILABLE_SECTORS - 1) = none := by
    rw [scanStatus_none_iff]
    intro j hj1 hj2
    exact hnoEmpty j hj1 (by omega)
  cases hfound : (compactLoop s.fctrStatusBytes 1 (FCTR_AVAILABLE_SECTORS - 1)).2 with
  | false =>
    rw [findWrite_scan_none_nofound s hscan hfound]
    have hall := (compactLoop_false_iff _ _ _).mp hfound
    refine ⟨?_, ?_, fun _ => rfl⟩
    · intro i h1 h2
      have hu := hall i h1 (by omega)
      have hcomp := compactLoop_getD (FCTR_AVAILABLE_SECTORS - 1) s.fctrStatusBytes 1
        (by omega) i
      rw [if_neg (by rintro ⟨_, _, c⟩; exact c hu)] at hcomp
      show (compactLoop s.fctrStatusBytes 1 (FCTR_AVAILABLE_SECTORS - 1)).1.getD i 0 = _
      rw [hcomp, if_neg (fun c => c hu)]
    · rintro ⟨i, hi1, hi2, hi3⟩
      exact absurd (hall i hi1 (by omega)) hi3
  | true =>
    rw [findWrite_scan_none_found s hscan hfound]
    refine ⟨?_, fun _ => ⟨rfl, by simp⟩, ?_⟩
    · intro i h1 h2
      have hcomp := compactLoop_getD (FCTR_AVAILABLE_SECTORS - 1) s.fctrStatusBytes 1
        (by omega) i
      show ((compactLoop s.fctrStatusBytes 1 (FCTR_AVAILABLE_SECTORS - 1)).1.set 0
          SIGNATURE_BYTE).getD i 0 = _
      rw [getD_set_ne _ _ _ _ (by omega), hcomp]
      by_cases hu : s.fctrStatusBytes.getD i 0 ≠ FCTR_SECTOR_UNREAD
      · rw [if_pos ⟨h1, by omega, hu⟩, if_pos hu]
      · rw [if_neg (by rintro ⟨_, _, c⟩; exact hu c), if_neg hu]
    · intro hall
      exfalso
      have hall2 : ∀ j, 1 ≤ j → j < 1 + (FCTR_AVAILABLE_SECTORS - 1) →
          s.fctrStatusBytes.getD j 0 = FCTR_SECTOR_UNREAD := by
        intro j hj1 hj2
        exact hall j hj1 (by omega)
      rw [← compactLoop_false_iff (FCTR_AVAILABLE_SECTORS - 1) s.fctrStatusBytes 1] at hall2
      rw [hall2] at hfound
      exact absurd hfound (by simp)

/-- C8: if at initialization the signature slot (status byte 0 of the Map
Sector) holds any value other than `SIGNATURE_BYTE`, then `fctr_firstInit`
(with the device bring-up succeeding) performs a full reformat: it succeeds,
and afterwards the mirror is exactly the freshly formatted table — entry 0
equals `SIGNATURE_BYTE` and every usable entry `1 .. FCTR_AVAILABLE_SECTORS - 1`
is `FCTR_SECTOR_EMPTY` — with all prior table contents discarded. -/
theorem claim_C8 (dev : Device) (s : FctrState)
    (hinit : dev.initOk = true)
    (hcap : ¬ dev.capacityInKB < FCTR_SIZE_OF_KILOBYTE)
    (hsig : (s.flash 0).getD 0 0 ≠ SIGNATURE_BYTE) :
    (fctr_firstInit dev s).1 = FctrStat.ok ∧
    (fctr_firstInit dev s).2.fctrStatusBytes =
      (List.replicate FCTR_AVAILABLE_SECTORS FCTR_SECTOR_EMPTY).set 0 SIGNATURE_BYTE ∧
    (fctr_firstInit dev s).2.fctrStatusBytes.getD 0 0 = SIGNATURE_BYTE ∧
    (∀ i, 1 ≤ i → i < FCTR_AVAILABLE_SECTORS →
      (fctr_firstInit dev s).2.fctrStatusBytes.getD i 0 = FCTR_SECTOR_EMPTY) := by
  have hsig2 : ((s.flash 0).take FCTR_AVAILABLE_SECTORS).getD 0 0 ≠ SIGNATURE_BYTE := by
    rw [getD_take_zero _ _ (by decide)]
    exact hsig
  have htake : ((List.replicate FCTR_AVAILABLE_SECTORS FCTR_SECTOR_EMPTY).set 0
      SIGNATURE_BYTE).take FCTR_AVAILABLE_SECTORS =
      (List.replicate FCTR_AVAILABLE_SECTORS FCTR_SECTOR_EMPTY).set 0 SIGNATURE_BYTE := by
    apply List.take_of_length_le
    rw [List.length_set, List.length_replicate]
  have hred : fctr_firstInit dev s =
      (FctrStat.ok,
       { fctrStatusBytes := ((List.replicate FCTR_AVAILABLE_SECTORS FCTR_SECTOR_EMPTY).set 0
            SIGNATURE_BYTE).take FCTR_AVAILABLE_SECTORS,
         flash := fun j =>
          if j = 0 then (List.replicate FCTR_AVAILABLE_SECTORS FCTR_SECTOR_EMPTY).set 0
            SIGNATURE_BYTE
          else s.flash j,
         persistCount := s.persistCount + 1 }) := by
    unfold fctr_firstInit fctr_initIC fctr_getFlashSizes fctr_readSectorStatus
      fctr_formatTheMemorySpace fctr_writeSectorStatus fctr_readSector
    simp only [hinit, if_true, if_neg hcap, ne_eq, reduceCtorEq, not_false_eq_true,
      not_true_eq_false, if_false, ite_false, hsig2, if_pos, ite_true]
  rw [hred, htake]
  have hlen0 : 0 < (List.replicate FCTR_AVAILABLE_SECTORS FCTR_SECTOR_EMPTY).length := by
    rw [List.length_replicate]; decide
  refine ⟨rfl, rfl, getD_set_self _ _ _ hlen0, ?_⟩
  intro i h1 h2
  rw [getD_set_ne _ _ _ _ (by omega)]
  exact getD_replicate _ _ _ h2

theorem claim_C8_witness :
    devAllOk.initOk = true ∧
    ¬ devAllOk.capacityInKB < FCTR_SIZE_OF_KILOBYTE ∧
    (stBlank.flash 0).getD 0 0 ≠ SIGNATURE_BYTE ∧
    ((fctr_firstInit devAllOk stBlank).1 = FctrStat.ok ∧
     (fctr_firstInit devAllOk stBlank).2.fctrStatusBytes =
       (List.replicate FCTR_AVAILABLE_SECTORS FCTR_SECTOR_EMPTY).set 0 SIGNATURE_BYTE ∧
     (fctr_firstInit devAllOk stBlank).2.fctrStatusBytes.getD 0 0 = SIGNATURE_BYTE ∧
     (∀ i, 1 ≤ i → i < FCTR_AVAILABLE_SECTORS →
       (fctr_firstInit devAllOk stBlank).2.fctrStatusBytes.getD i 0 = FCTR_SECTOR_EMPTY)) :=
  ⟨rfl, by decide, by decide,
   claim_C8 devAllOk stBlank rfl (by decide) (by decide)⟩

/-- C9: `fctr_firstInit` returns failure exactly when the device init fails or
the reported capacity is below the reserved minimum of one megabyte; a
mismatch between the detected geometry (sector count, sector size) and the
compiled constants does not influence the result at all — the compiled values
are used regardless, so the run is identical for any reported sector count and
sector size. -/
theorem claim_C9 (dev : Device) (s : FctrState) :
    ((fctr_firstInit dev s).1 = FctrStat.error ↔
      dev.initOk = false ∨ dev.capacityInKB < FCTR_SIZE_OF_KILOBYTE) ∧
    ∀ c z, fctr_firstInit
        { writeByteVerifyOk := dev.writeByteVerifyOk, initOk := dev.initOk,
          capacityInKB := dev.capacityInKB, sectorCount := c, sectorSize := z } s =
      fctr_firstInit dev s := by
  refine ⟨?_, fun c z => rfl⟩
  cases hI : dev.initOk with
  | false =>
    simp [fctr_firstInit, fctr_initIC, hI]
  | true =>
    by_cases hcap : dev.capacityInKB < FCTR_SIZE_OF_KILOBYTE
    · simp [fctr_firstInit, fctr_initIC, fctr_getFlashSizes, hI, hcap]
    · by_cases hsig : ((s.flash 0).take FCTR_AVAILABLE_SECTORS).getD 0 0 = SIGNATURE_BYTE
      · rw [List.getD_eq_getElem?_getD] at hsig
        simp [fctr_firstInit, fctr_initIC, fctr_getFlashSizes, fctr_readSectorStatus,
          hI, hcap, hsig]
      · rw [List.getD_eq_getElem?_getD] at hsig
        simp [fctr_firstInit, fctr_initIC, fctr_getFlashSizes, fctr_readSectorStatus,
          fctr_formatTheMemorySpace, fctr_writeSectorStatus, fctr_readSector,
          hI, hcap, hsig]

theorem claim_C9_witness :
    ((fctr_firstInit devAllOk stBlank).1 = FctrStat.error ↔
      devAllOk.initOk = false ∨ devAllOk.capacityInKB < FCTR_SIZE_OF_KILOBYTE) ∧
    ∀ c z, fctr_firstInit
        { writeByteVerifyOk := devAllOk.writeByteVerifyOk, initOk := devAllOk.initOk,
          capacityInKB := devAllOk.capacityInKB, sectorCount := c, sectorSize := z } stBlank =
      fctr_firstInit devAllOk stBlank :=
  claim_C9 devAllOk stBlank

theorem mirror_pattern_getD_lo (k m j : Nat) (h1 : 1 ≤ j) (h2 : j ≤ k) :
    (SIGNATURE_BYTE :: (List.replicate k FCTR_SECTOR_UNREAD ++
      List.replicate m FCTR_SECTOR_EMPTY)).getD j 0 = FCTR_SECTOR_UNREAD := by
  cases j with
  | zero => omega
  | succ i =>
    rw [List.getD_cons_succ]
    exact repl_append_getD_left _ _ _ _ _ (by omega)

theorem mirror_pattern_getD_hi (k m j : Nat) (h1 : k + 1 ≤ j) (h2 : j ≤ k + m) :
    (SIGNATURE_BYTE :: (List.replicate k FCTR_SECTOR_UNREAD ++
      List.replicate m FCTR_SECTOR_EMPTY)).getD j 0 = FCTR_SECTOR_EMPTY := by
  cases j with
  | zero => omega
  | succ i =>
    rw [List.getD_cons_succ]
    exact repl_append_getD_right _ _ _ _ _ (by omega) (by omega)

theorem push_step (dev : Device) (hdev : dev.writeByteVerifyOk = true)
    (pay : List Nat) (s : FctrState) (k : Nat) (hk : k < FCTR_AVAILABLE_SECTORS - 1)
    (hs : s.fctrStatusBytes =
      SIGNATURE_BYTE :: (List.replicate k FCTR_SECTOR_UNREAD ++
        List.replicate (FCTR_AVAILABLE_SECTORS - 1 - k) FCTR_SECTOR_EMPTY)) :
    (fctr_pushToFlash dev pay s).1 = FctrStat.ok ∧
    (fctr_pushToFlash dev pay s).2.fctrStatusBytes =
      SIGNATURE_BYTE :: (List.replicate (k + 1) FCTR_SECTOR_UNREAD ++
        List.replicate (FCTR_AVAILABLE_SECTORS - 1 - (k + 1)) FCTR_SECTOR_EMPTY) ∧
    (fctr_pushToFlash dev pay s).2.flash (k + 1) = pay := by
  have hN : FCTR_AVAILABLE_SECTORS = 1792 := rfl
  have hscan : scanStatus s.fctrStatusBytes FCTR_SECTOR_EMPTY 1 (FCTR_AVAILABLE_SECTORS - 1) =
      some (k + 1) := by
    apply scanStatus_finds_least
    · omega
    · omega
    · rw [hs]
      exact mirror_pattern_getD_hi k _ (k + 1) le_rfl (by omega)
    · intro j hj1 hj2
      rw [hs, mirror_pattern_getD_lo k _ j hj1 (by omega)]
      decide
  have hfind : fctr_findSectorToWrite s = (some (k + 1), s) := findWrite_scan_some s (k + 1) hscan
  have hS : FCTR_SECTOR_SIZE = 4096 := rfl
  have hdiv : (k + 1) / FCTR_SECTOR_SIZE = 0 := Nat.div_eq_of_lt (by omega)
  have hmod : (k + 1) % FCTR_SECTOR_SIZE = k + 1 := Nat.mod_eq_of_lt (by omega)
  have hred : fctr_pushToFlash dev pay s =
      (FctrStat.ok,
       { fctrStatusBytes := s.fctrStatusBytes.set (k + 1) FCTR_SECTOR_UNREAD,
         flash := fun j =>
          if j = 0 then
            ((fun j2 => if j2 = k + 1 then pay else s.flash j2) 0).set (k + 1)
              FCTR_SECTOR_UNREAD
          else (fun j2 => if j2 = k + 1 then pay else s.flash j2) j,
         persistCount := s.persistCount }) := by
    unfold fctr_pushToFlash fctr_writeSector fctr_changeSectorStatus fctr_writeByte
    rw [hfind]
    simp only [hdev, if_true, ite_true, ne_eq, reduceCtorEq, not_false_eq_true,
      not_true_eq_false, if_false, ite_false, hdiv, hmod]
  refine ⟨by rw [hred], ?_, ?_⟩
  · rw [hred, hs]
    show (SIGNATURE_BYTE :: (List.replicate k FCTR_SECTOR_UNREAD ++
        List.replicate (FCTR_AVAILABLE_SECTORS - 1 - k) FCTR_SECTOR_EMPTY)).set (k + 1)
        FCTR_SECTOR_UNREAD = _
    rw [List.set_cons_succ]
    have hm : FCTR_AVAILABLE_SECTORS - 1 - k = (FCTR_AVAILABLE_SECTORS - 1 - (k + 1)) + 1 := by
      omega
    rw [hm, List.replicate_succ, set_replicate_append]
  · rw [hred]
    simp

theorem push_full (dev : Device) (pay : List Nat) (s : FctrState)
    (hs : s.fctrStatusBytes =
      SIGNATURE_BYTE :: List.replicate (FCTR_AVAILABLE_SECTORS - 1) FCTR_SECTOR_UNREAD) :
    (fctr_pushToFlash dev pay s).1 = FctrStat.error := by
  have hN : FCTR_AVAILABLE_SECTORS = 1792 := rfl
  have hscan : scanStatus s.fctrStatusBytes FCTR_SECTOR_EMPTY 1 (FCTR_AVAILABLE_SECTORS - 1) =
      none := by
    rw [scanStatus_none_iff]
    intro j hj1 hj2
    rw [hs]
    cases j with
    | zero => omega
    | succ i =>
      rw [List.getD_cons_succ, getD_replicate _ _ _ (by omega)]
      decide
  have hfound : (compactLoop s.fctrStatusBytes 1 (FCTR_AVAILABLE_SECTORS - 1)).2 = false := by
    rw [compactLoop_false_iff]
    intro j hj1 hj2
    rw [hs]
    cases j with
    | zero => omega
    | succ i =>
      rw [List.getD_cons_succ]
      exact getD_replicate _ _ _ (by omega)
  unfold fctr_pushToFlash
  rw [findWrite_scan_none_nofound s hscan hfound]

/-- Invariant of the staircase of pushes from a freshly formatted table: after
`k` pushes the first `k` usable entries are unread and the rest are empty. -/
theorem pushSeq_mirror (dev : Device) (hdev : dev.writeByteVerifyOk = true)
    (p : Nat → List Nat) (s : FctrState)
    (hs : s.fctrStatusBytes =
      SIGNATURE_BYTE :: List.replicate (FCTR_AVAILABLE_SECTORS - 1) FCTR_SECTOR_EMPTY) :
    ∀ k, k ≤ FCTR_AVAILABLE_SECTORS - 1 →
      (pushSeq dev p s k).fctrStatusBytes =
        SIGNATURE_BYTE :: (List.replicate k FCTR_SECTOR_UNREAD ++
          List.replicate (FCTR_AVAILABLE_SECTORS - 1 - k) FCTR_SECTOR_EMPTY) := by
  intro k
  induction k with
  | zero =>
    intro _
    show s.fctrStatusBytes = _
    rw [hs]
    rfl
  | succ n ih =>
    intro hn
    have hmir := ih (by omega)
    have hstep := push_step dev hdev (p n) (pushSeq dev p s n) n (by omega) hmir
    show (fctr_pushToFlash dev (p n) (pushSeq dev p s n)).2.fctrStatusBytes = _
    exact hstep.2.1

/-- C6: starting from a state whose usable entries
`1 .. FCTR_AVAILABLE_SECTORS - 1` are all `FCTR_SECTOR_EMPTY` and with every
device operation succeeding, each of the first `FCTR_AVAILABLE_SECTORS - 1`
consecutive `fctr_pushToFlash` calls succeeds, and the next push — with no
empty and no read entry remaining — fails with no-space-available. -/
theorem claim_C6 (dev : Device) (hdev : dev.writeByteVerifyOk = true)
    (p : Nat → List Nat) (s : FctrState)
    (hs : s.fctrStatusBytes =
      SIGNATURE_BYTE :: List.replicate (FCTR_AVAILABLE_SECTORS - 1) FCTR_SECTOR_EMPTY)
    (k : Nat) (hk : k ≤ FCTR_AVAILABLE_SECTORS - 1) :
    (fctr_pushToFlash dev (p k) (pushSeq dev p s k)).1 =
      if k < FCTR_AVAILABLE_SECTORS - 1 then FctrStat.ok else FctrStat.error := by
  have hmir := pushSeq_mirror dev hdev p s hs k hk
  by_cases hlt : k < FCTR_AVAILABLE_SECTORS - 1
  · rw [if_pos hlt]
    exact (push_step dev hdev (p k) _ k hlt hmir).1
  · rw [if_neg hlt]
    have hke : k = FCTR_AVAILABLE_SECTORS - 1 := by omega
    subst hke
    apply push_full dev (p _)
    rw [hmir]
    simp

theorem claim_C6_witness :
    devAllOk.writeByteVerifyOk = true ∧
    stFormatted.fctrStatusBytes =
      SIGNATURE_BYTE :: List.replicate (FCTR_AVAILABLE_SECTORS - 1) FCTR_SECTOR_EMPTY ∧
    0 ≤ FCTR_AVAILABLE_SECTORS - 1 ∧
    (fctr_pushToFlash devAllOk ((fun _ => ([] : List Nat)) 0)
        (pushSeq devAllOk (fun _ => ([] : List Nat)) stFormatted 0)).1 =
      if 0 < FCTR_AVAILABLE_SECTORS - 1 then FctrStat.ok else FctrStat.error :=
  ⟨rfl, rfl, Nat.zero_le _,
   claim_C6 devAllOk rfl (fun _ => ([] : List Nat)) stFormatted rfl 0 (Nat.zero_le _)⟩

/-- C7: from a freshly formatted state (all usable entries empty), with device
operations succeeding, for every payload `X` exactly one sector in size,
`fctr_pushToFlash X` succeeds and the immediately following `fctr_popFromFlash`
succeeds and returns a buffer equal to `X` unchanged. -/
theorem claim_C7 (dev : Device) (hdev : dev.writeByteVerifyOk = true)
    (X : List Nat) (hX : X.length = FCTR_SECTOR_SIZE) (s : FctrState)
    (hs : s.fctrStatusBytes =
      SIGNATURE_BYTE :: List.replicate (FCTR_AVAILABLE_SECTORS - 1) FCTR_SECTOR_EMPTY) :
    (fctr_pushToFlash dev X s).1 = FctrStat.ok ∧
    (fctr_popFromFlash dev (fctr_pushToFlash dev X s).2).1 = FctrStat.ok ∧
    (fctr_popFromFlash dev (fctr_pushToFlash dev X s).2).2.1 = X := by
  have hN : FCTR_AVAILABLE_SECTORS = 1792 := rfl
  have hs0 : s.fctrStatusBytes =
      SIGNATURE_BYTE :: (List.replicate 0 FCTR_SECTOR_UNREAD ++
        List.replicate (FCTR_AVAILABLE_SECTORS - 1 - 0) FCTR_SECTOR_EMPTY) := by
    rw [hs]
    rfl
  obtain ⟨hok, hmir, hfl⟩ := push_step dev hdev X s 0 (by omega) hs0
  have hscanR : scanStatus (fctr_pushToFlash dev X s).2.fctrStatusBytes FCTR_SECTOR_UNREAD 1
      (FCTR_AVAILABLE_SECTORS - 1) = some 1 := by
    apply scanStatus_finds_least
    · exact le_rfl
    · omega
    · rw [hmir]
      exact mirror_pattern_getD_lo (0 + 1) _ 1 le_rfl le_rfl
    · intro j hj1 hj2
      omega
  refine ⟨hok, ?_, ?_⟩
  · unfold fctr_popFromFlash fctr_findSectorToRead fctr_readSector fctr_changeSectorStatus
      fctr_writeByte
    rw [hscanR]
    simp only [hdev, ite_true, if_true, ne_eq, reduceCtorEq, not_false_eq_true,
      not_true_eq_false, if_false, ite_false]
  · unfold fctr_popFromFlash fctr_findSectorToRead fctr_readSector fctr_changeSectorStatus
      fctr_writeByte
    rw [hscanR]
    simp only [hdev, ite_true, if_true, ne_eq, reduceCtorEq, not_false_eq_true,
      not_true_eq_false, if_false, ite_false]
    exact hfl

theorem claim_C7_witness :
    devAllOk.writeByteVerifyOk = true ∧
    (List.replicate FCTR_SECTOR_SIZE 0).length = FCTR_SECTOR_SIZE ∧
    stFormatted.fctrStatusBytes =
      SIGNATURE_BYTE :: List.replicate (FCTR_AVAILABLE_SECTORS - 1) FCTR_SECTOR_EMPTY ∧
    ((fctr_pushToFlash devAllOk (List.replicate FCTR_SECTOR_SIZE 0) stFormatted).1 =
        FctrStat.ok ∧
     (fctr_popFromFlash devAllOk
        (fctr_pushToFlash devAllOk (List.replicate FCTR_SECTOR_SIZE 0) stFormatted).2).1 =
        FctrStat.ok ∧
     (fctr_popFromFlash devAllOk
        (fctr_pushToFlash devAllOk (List.replicate FCTR_SECTOR_SIZE 0) stFormatted).2).2.1 =
        List.replicate FCTR_SECTOR_SIZE 0) :=
  ⟨rfl, by rw [List.length_replicate], rfl,
   claim_C7 devAllOk rfl (List.replicate FCTR_SECTOR_SIZE 0)
     (by rw [List.length_replicate]) stFormatted rfl⟩

theorem stAllUnread_noEmpty :
    ∀ i, 1 ≤ i → i < FCTR_AVAILABLE_SECTORS →
      stAllUnread.fctrStatusBytes.getD i 0 ≠ FCTR_SECTOR_EMPTY := by
  intro i h1 h2
  rw [FCTR_AVAILABLE_SECTORS_eq] at h2
  show (SIGNATURE_BYTE :: List.replicate 1791 FCTR_SECTOR_UNREAD).getD i 0 ≠ FCTR_SECTOR_EMPTY
  cases i with
  | zero => omega
  | succ j =>
    rw [List.getD_cons_succ, getD_replicate _ _ _ (by omega)]
    decide

theorem claim_C3_witness :
    stAllUnread.fctrStatusBytes.length = FCTR_AVAILABLE_SECTORS ∧
    (∀ i, 1 ≤ i → i < FCTR_AVAILABLE_SECTORS →
      stAllUnread.fctrStatusBytes.getD i 0 ≠ FCTR_SECTOR_EMPTY) ∧
    ((∀ i, 1 ≤ i → i < FCTR_AVAILABLE_SECTORS →
        (fctr_findSectorToWrite stAllUnread).2.fctrStatusBytes.getD i 0 =
          if stAllUnread.fctrStatusBytes.getD i 0 ≠ FCTR_SECTOR_UNREAD then FCTR_SECTOR_EMPTY
          else stAllUnread.fctrStatusBytes.getD i 0) ∧
     ((∃ i, 1 ≤ i ∧ i < FCTR_AVAILABLE_SECTORS ∧
        stAllUnread.fctrStatusBytes.getD i 0 ≠ FCTR_SECTOR_UNREAD) →
      (fctr_findSectorToWrite stAllUnread).2.persistCount = stAllUnread.persistCount + 1 ∧
      (fctr_findSectorToWrite stAllUnread).2.flash 0 =
        (fctr_findSectorToWrite stAllUnread).2.fctrStatusBytes) ∧
     ((∀ i, 1 ≤ i → i < FCTR_AVAILABLE_SECTORS →
        stAllUnread.fctrStatusBytes.getD i 0 = FCTR_SECTOR_UNREAD) →
      (fctr_findSectorToWrite stAllUnread).2.persistCount = stAllUnread.persistCount)) :=
  ⟨stAllUnread_length, stAllUnread_noEmpty,
   claim_C3 stAllUnread stAllUnread_length stAllUnread_noEmpty⟩
